import Mathlib

/-!
Verification of the core data model and reactive callbacks of
`marketing_dashboard.py` (a Dash marketing-funnel dashboard).

Modelling conventions used throughout this development:
* Python / numpy floating-point arithmetic in the data generators is modelled
  over `ℚ` (exact rationals); `int(...)` / `.astype(int)` truncation toward
  zero is `pyInt`.
* `numpy.random.default_rng(seed)` is modelled abstractly: a `PyState` carries,
  for every seed, the stream of raw values the generator would produce
  (`norms` for `rng.normal`, `ints` for `rng.integers`); a `Rng` value is a
  (seed, position) pair, so a freshly created generator for a seed always
  replays the same stream, which is exactly PCG64's determinism contract.
  The state also carries the (process-dependent) Python string hash used by
  `render_details` for per-employee history seeds.
* The global `random`-module state is the `globalRandom` field; the program
  never touches it, which is what the isolation theorems express.
-/

/-- Abstract state of the Python process' random sources.  `norms seed i` is
the `i`-th raw value `default_rng(seed)` would hand to `rng.normal`, and
`ints seed i` the raw value behind `rng.integers`; `strHash` models Python's
process-dependent `hash` on strings. -/
structure PyState where
  globalRandom : ℤ
  norms : ℕ → ℕ → ℚ
  ints : ℕ → ℕ → ℤ
  strHash : String → ℤ

/-- A numpy `Generator`: the seed it was created from and how many values it
has already produced. -/
structure Rng where
  seed : ℕ
  pos : ℕ

/-- `_rng(seed)` — `np.random.default_rng(seed)`, a fresh generator. -/
def _rng (seed : ℕ) : Rng := ⟨seed, 0⟩

/-- `rng.normal(mu, sigma)`: the next raw stream value, shifted and scaled. -/
def Rng.normal (r : Rng) (st : PyState) (mu sigma : ℚ) : ℚ × Rng :=
  (mu + sigma * st.norms r.seed r.pos, ⟨r.seed, r.pos + 1⟩)

/-- `rng.integers(lo, hi)`: an integer in `[lo, hi)` drawn from the seed's
integer stream (`emod` enforces the half-open-range contract). -/
def Rng.integers (r : Rng) (st : PyState) (lo hi : ℤ) : ℤ × Rng :=
  (lo + (st.ints r.seed r.pos).emod (hi - lo), ⟨r.seed, r.pos + 1⟩)

/-- `np.clip(x, lo, hi)`. -/
def clip (x lo hi : ℚ) : ℚ := max lo (min hi x)

/-- Python `int(q)` / numpy `.astype(int)`: truncation toward zero. -/
def pyInt (q : ℚ) : ℤ := if 0 ≤ q then ⌊q⌋ else ⌈q⌉

/-- `make_dummy_funnel(seed)` (src lines 62–86): draw a base impression count
and successive clamped-normal stage ratios, truncate each product to an
integer, then enforce the monotone funnel invariant by successive `min`s. -/
def make_dummy_funnel (seed : ℕ) (st : PyState) : List ℤ × PyState :=
  let rng := _rng seed
  let (b, rng) := rng.integers st 1800000 2500000
  let base := b
  let (v1, rng) := rng.normal st (18/1000) (6/1000)
  let ctr := clip v1 (6/1000) (6/100)
  let click := pyInt ((base : ℚ) * ctr)
  let (v2, rng) := rng.normal st (7/100) (2/100)
  let click_to_lead := clip v2 (2/100) (22/100)
  let lead := pyInt ((click : ℚ) * click_to_lead)
  let (v3, rng) := rng.normal st (45/100) (12/100)
  let lead_to_mql := clip v3 (10/100) (85/100)
  let mql := pyInt ((lead : ℚ) * lead_to_mql)
  let (v4, rng) := rng.normal st (35/100) (10/100)
  let mql_to_sql := clip v4 (8/100) (80/100)
  let sql := pyInt ((mql : ℚ) * mql_to_sql)
  let (v5, _r5) := rng.normal st (18/100) (7/100)
  let sql_to_won := clip v5 (2/100) (55/100)
  let won := pyInt ((sql : ℚ) * sql_to_won)
  let click := min click base
  let lead := min lead click
  let mql := min mql lead
  let sql := min sql mql
  let won := min won sql
  ([base, click, lead, mql, sql, won], st)

/-- The in-place pass `for k in range(1, len(counts)): counts[k] =
min(counts[k], counts[k-1])`, which sees the already-updated predecessor. -/
def clampFrom (prev : ℤ) : List ℤ → List ℤ
  | [] => []
  | y :: ys => let y' := min y prev; y' :: clampFrom y' ys

/-- The monotone clamp applied to a whole counts list. -/
def monotone_clamp : List ℤ → List ℤ
  | [] => []
  | x :: xs => x :: clampFrom x xs

/-- One iteration of the employee loop in `split_by_employees` plus the
recursion over the remaining weights; the generator is threaded so iteration
`i` consumes the `i`-th draw. -/
def split_loop (st : PyState) (all_counts : List ℤ) :
    List ℚ → Rng → List (List ℤ)
  | [], _ => []
  | w :: ws, rng =>
    let (v, rng') := rng.normal st 1 (8/100)
    let factor := w * clip v (85/100) (115/100)
    let counts := all_counts.map (fun (c : ℤ) => pyInt ((c : ℚ) * factor))
    let counts := monotone_clamp counts
    counts :: split_loop st all_counts ws rng'

/-- Element-wise `summed[i] += per_emp[e][i]`. -/
def add_vec (a b : List ℤ) : List ℤ := a.zipWith (· + ·) b

/-- `split_by_employees(all_counts, seed)` (src lines 89–108): per-employee
weighted, perturbed, truncated, re-clamped copies of the base counts, plus an
`"All"` entry that is the element-wise sum of the four employee entries. -/
def split_by_employees (all_counts : List ℤ) (seed : ℕ) (st : PyState) :
    List (String × List ℤ) × PyState :=
  let rng := _rng seed
  let weights : List ℚ := [28/100, 25/100, 25/100, 22/100]
  let total := weights.foldl (· + ·) 0
  let weights := weights.map (· / total)
  let emps := ["Sofía", "Mateo", "Valentina", "Juan"]
  let per := split_loop st all_counts weights rng
  let summed := per.foldl add_vec (List.replicate all_counts.length 0)
  (emps.zip per ++ [("All", summed)], st)

/-- Python `dict.get(k, default)` over an insertion-ordered dict. -/
def dict_get {α : Type} (d : List (String × α)) (k : String) (dflt : α) : α :=
  ((d.lookup k).getD dflt)

/-- `pct_prev(curr, prev)` (src lines 166–167). -/
def pct_prev (curr prev : ℤ) : ℚ :=
  if prev ≠ 0 then (curr : ℚ) / (prev : ℚ) * 100 else 0

/-- The row-local `safe_pct(num, den)` of `make_3_months_kpis`
(src lines 131–132). -/
def safe_pct (num den : ℤ) : ℚ :=
  if den ≠ 0 then (num : ℚ) / (den : ℚ) * 100 else 0

/-- One `MonthlyKpiRow` of the dataframe built by `make_3_months_kpis`.
`month` is the absolute month number (year·12 + month − 1) behind the
`"%Y-%m"` label the source formats. -/
structure MonthlyKpiRow where
  month : ℤ
  impressions : ℤ
  clicks : ℤ
  leads : ℤ
  mql : ℤ
  sql : ℤ
  won : ℤ
  ctr : ℚ
  click_to_lead : ℚ
  lead_to_mql : ℚ
  mql_to_sql : ℚ
  sql_to_won : ℚ
deriving DecidableEq, Repr

/-- The six raw stage counts of a row, in funnel order. -/
def MonthlyKpiRow.counts (r : MonthlyKpiRow) : List ℤ :=
  [r.impressions, r.clicks, r.leads, r.mql, r.sql, r.won]

/-- The drift multiplier the history loop applies at month index `idx`:
`0.90 + 0.06*idx + clip(rng.normal(0, 0.03), -0.05, 0.05)`; the loop draws
exactly once per month, so month `idx` consumes the generator's `idx`-th
value. -/
def drift_at (st : PyState) (seed : ℕ) (idx : ℕ) : ℚ :=
  9/10 + 6/100 * (idx : ℚ) +
    clip ((Rng.mk seed idx).normal st 0 (3/100)).1 (-(5/100)) (5/100)

/-- The body of the month loop of `make_3_months_kpis` at index `idx`:
scale all six counts by the drift, truncate, re-clamp to monotone, and
derive the five safe percentages.  (The Python tuple unpacking
`imp, clk, ... = vals` requires exactly six values; entries past the end
default to 0 here.) -/
def month_row (st : PyState) (seed : ℕ) (base : List ℤ) (now : ℤ)
    (idx : ℕ) : MonthlyKpiRow :=
  let drift := drift_at st seed idx
  let vals := monotone_clamp (base.map fun (c : ℤ) => pyInt ((c : ℚ) * drift))
  let imp := vals.getD 0 0
  let clk := vals.getD 1 0
  let lead := vals.getD 2 0
  let mql := vals.getD 3 0
  let sql := vals.getD 4 0
  let won := vals.getD 5 0
  { month := now - 2 + (idx : ℤ)
    impressions := imp, clicks := clk, leads := lead
    mql := mql, sql := sql, won := won
    ctr := safe_pct clk imp
    click_to_lead := safe_pct lead clk
    lead_to_mql := safe_pct mql lead
    mql_to_sql := safe_pct sql mql
    sql_to_won := safe_pct won sql }

/-- `make_3_months_kpis(counts_now, seed)` (src lines 111–148): three rows,
oldest month first (`now` is the current absolute month; the month list is
`[now-2, now-1, now-0]`). -/
def make_3_months_kpis (counts_now : List ℤ) (seed : ℕ) (st : PyState)
    (now : ℤ) : List MonthlyKpiRow × PyState :=
  (((List.range 3).map (month_row st seed counts_now now)), st)

/-- `BASE_COUNTS = make_dummy_funnel(seed=11)` (src line 151). -/
def BASE_COUNTS (st : PyState) : List ℤ := (make_dummy_funnel 11 st).1

/-- `DATA_BY_EMP = split_by_employees(BASE_COUNTS, seed=11)` (src line 152). -/
def DATA_BY_EMP (st : PyState) : List (String × List ℤ) :=
  (split_by_employees (BASE_COUNTS st) 11 st).1

/-- `EMPLOYEES` (src line 14). -/
def EMPLOYEES : List String := ["All", "Sofía", "Mateo", "Valentina", "Juan"]

/-- Round half-to-even of `a / b` (for `b > 0`); the rounding used both when a
real is taken to the nearest IEEE binary64 and when a float is rendered with a
fixed number of decimals. -/
def rheDiv (a b : ℕ) : ℕ :=
  let f := a / b
  let r := a % b
  if 2*r < b then f else if b < 2*r then f + 1 else if f % 2 = 0 then f
  else f + 1

/-- Fuel-driven `⌊log₂ n⌋` (0 for `n = 0`). -/
def floorLog2Aux : ℕ → ℕ → ℕ
  | 0, _ => 0
  | fuel+1, n => if 2 ≤ n then floorLog2Aux fuel (n / 2) + 1 else 0

/-- `⌊log₂ n⌋`. -/
def floorLog2 (n : ℕ) : ℕ := floorLog2Aux n n

/-- The IEEE binary64 value nearest to `a / b` (for `a / b ≥ 1`; subnormals
and overflow do not occur in the formatter's range), returned as an exact
numerator/denominator pair. -/
def toDouble (a b : ℕ) : ℕ × ℕ :=
  let e := floorLog2 (a / b)
  let sig := rheDiv (a * 2^52) (b * 2^e)
  (sig * 2^e, 2^52)

/-- CPython `n / float(d)` for an `int` `n` and exact-double `d`: `n` is first
converted to binary64, then the division is correctly rounded. -/
def pydivFloat (n : ℕ) (d : ℕ) : ℕ × ℕ :=
  let p1 := toDouble n 1
  toDouble p1.1 (p1.2 * d)

/-- Python `f"{x:.2f}"` for a non-negative double given as an exact pair:
round half-to-even to 2 decimals, always printing both. -/
def fmtFixed2 (pq : ℕ × ℕ) : String :=
  let m := rheDiv (pq.1 * 100) pq.2
  toString (m / 100) ++ "." ++
    (if m % 100 < 10 then "0" ++ toString (m % 100) else toString (m % 100))

/-- Python `f"{x:.1f}"` for a non-negative double given as an exact pair. -/
def fmtFixed1 (pq : ℕ × ℕ) : String :=
  let m := rheDiv (pq.1 * 10) pq.2
  toString (m / 10) ++ "." ++ toString (m % 10)

/-- `fmt_int(n)` (src lines 158–163): `"{n/1e6:.2f}M"` above a million,
`"{n/1e3:.1f}K"` above a thousand, else `str(n)`. -/
def fmt_int (n : ℤ) : String :=
  if 1000000 ≤ n then fmtFixed2 (pydivFloat n.toNat 1000000) ++ "M"
  else if 1000 ≤ n then fmtFixed1 (pydivFloat n.toNat 1000) ++ "K"
  else toString n

/-- Python `min(keys, key=f)`: fold that replaces the current best only on a
strictly smaller key, so the first minimum wins. -/
def py_min_by {α : Type} (f : α → ℚ) (x : α) (xs : List α) : α :=
  xs.foldl (fun b y => if f y < f b then y else b) x

/-- Python `max(keys, key=f)`: replaces only on a strictly larger key, so the
first maximum wins. -/
def py_max_by {α : Type} (f : α → ℚ) (x : α) (xs : List α) : α :=
  xs.foldl (fun b y => if f b < f y then y else b) x

/-- The best/worst selection of `update_overview` (src lines 833–834); the
spec calls it `rankKpis`.  Takes the rates dict as head and tail so the
enumeration order is explicit. -/
def rankKpis (r : String × ℚ) (rs : List (String × ℚ)) : String × String :=
  ((py_max_by Prod.snd r rs).1, (py_min_by Prod.snd r rs).1)

/-- The outputs of `update_overview` relevant to the spec: the counts that
were rendered, the rates dict in enumeration order, and the best/worst KPI
names of the insights panel. -/
structure OverviewView where
  counts : List ℤ
  rates : List (String × ℚ)
  best : String
  worst : String

/-- The body of `update_overview` after the counts lookup (src lines
805–851).  The Python tuple unpacking needs exactly six counts, which holds
for every entry of `DATA_BY_EMP`; other shapes are modelled by an empty
rates dict. -/
def overview_of (counts : List ℤ) : OverviewView :=
  match counts with
  | [imp, clk, lead, mql, sql, won] =>
    let r0 := ("CTR", pct_prev clk imp)
    let rs := [("Click → Lead", pct_prev lead clk),
               ("Lead → MQL", pct_prev mql lead),
               ("MQL → SQL", pct_prev sql mql),
               ("SQL → Won", pct_prev won sql)]
    ⟨counts, r0 :: rs, (rankKpis r0 rs).1, (rankKpis r0 rs).2⟩
  | _ => ⟨counts, [], "", ""⟩

/-- `update_overview(employee)` (src lines 799–851):
`counts = DATA_BY_EMP.get(employee, DATA_BY_EMP["All"])`, then the derived
outputs. -/
def update_overview (employee : String) (st : PyState) : OverviewView :=
  overview_of
    (dict_get (DATA_BY_EMP st) employee (dict_get (DATA_BY_EMP st) "All" []))

/-- The suffix of `l` after the first occurrence of `sep`, if any; mirrors
the Python idiom `sep in s` / `s.split(sep)[1]`. -/
def afterFirst (sep : List Char) : List Char → Option (List Char)
  | [] => if sep = [] then some [] else none
  | c :: rest =>
    if sep.isPrefixOf (c :: rest) then some ((c :: rest).drop sep.length)
    else afterFirst sep rest

/-- The prop-id parse of `kpi_click` (src lines 870–873): default
`"impressions"`, replaced by `prop_id.split('"kpi":"')[1].split('"')[0]`
when the marker occurs.  (Taking chars up to the next `"` agrees with the
Python double split because every later marker occurrence starts with a
quote.) -/
def kpi_from_prop (prop_id : String) : String :=
  match afterFirst ("\"kpi\":\"".data) prop_id.data with
  | some rest => String.mk (rest.takeWhile (fun c => c ≠ '"'))
  | none => "impressions"

/-- `kpi_click` (src lines 854–874): given the Dash
`callback_context.triggered` prop-id list, returns the two outputs
(`selected-kpi` data, `tabs` value) of the single callback. -/
def kpi_click (triggered : List String) : String × String :=
  match triggered with
  | [] => ("impressions", "tab-overview")
  | prop_id :: _ => (kpi_from_prop prop_id, "tab-details")

/-- The prop-id Dash reports when the card with id
`{"type": "kpi", "kpi": kpiId}` is clicked (keys serialized in sorted
order). -/
def dash_prop_id (kpiId : String) : String :=
  "\x7b\"kpi\":\"" ++ kpiId ++ "\",\"type\":\"kpi\"\x7d.n_clicks"

/-- The view state of the UI: employee dropdown value, `selected-kpi` store,
and active tab. -/
structure ViewState where
  employee : String
  kpi : String
  tab : String
deriving DecidableEq, Repr

/-- The initial state (dropdown `"All"`, store `"impressions"`, tab
`"tab-overview"`; src lines 554, 698, 756). -/
def initialViewState : ViewState := ⟨"All", "impressions", "tab-overview"⟩

/-- Changing the employee dropdown: no callback writes the store or the tab,
so only `employee` changes. -/
def selectEmployee (e : String) (s : ViewState) : ViewState :=
  { s with employee := e }

/-- Clicking the KPI card with id `kpiId`: the one `kpi_click` callback fires
with that card's prop-id and atomically writes both the store and the tab;
no output of it touches the employee dropdown. -/
def clickKpiCard (kpiId : String) (s : ViewState) : ViewState :=
  let kt := kpi_click [dash_prop_id kpiId]
  { s with kpi := kt.1, tab := kt.2 }

/-- The six KPI card identifiers (src lines 811–824, 857–862). -/
def kpi_ids : List String :=
  ["impressions", "ctr", "click_to_lead", "lead_to_mql", "mql_to_sql",
   "sql_to_won"]

/-- The `meta` dict of `render_details` (src lines 889–896):
id ↦ (title, dataframe column, explanation). -/
def meta : List (String × String × String × String) :=
  [("impressions", "Impressions", "impressions",
    "Total de impresiones por mes."),
   ("ctr", "CTR", "ctr", "Clicks / Impressions (%)."),
   ("click_to_lead", "Click → Lead", "click_to_lead", "Leads / Clicks (%)."),
   ("lead_to_mql", "Lead → MQL", "lead_to_mql", "MQL / Leads (%)."),
   ("mql_to_sql", "MQL → SQL", "mql_to_sql", "SQL / MQL (%)."),
   ("sql_to_won", "SQL → Won", "sql_to_won", "Won / SQL (%).")]

/-- `df[col]` on a `MonthlyKpiRow`: the value of the named column. -/
def rowField (col : String) (r : MonthlyKpiRow) : ℚ :=
  if col == "impressions" then (r.impressions : ℚ)
  else if col == "clicks" then (r.clicks : ℚ)
  else if col == "leads" then (r.leads : ℚ)
  else if col == "mql" then (r.mql : ℚ)
  else if col == "sql" then (r.sql : ℚ)
  else if col == "won" then (r.won : ℚ)
  else if col == "ctr" then r.ctr
  else if col == "click_to_lead" then r.click_to_lead
  else if col == "lead_to_mql" then r.lead_to_mql
  else if col == "mql_to_sql" then r.mql_to_sql
  else if col == "sql_to_won" then r.sql_to_won
  else 0

/-- The outputs of `render_details` relevant to the spec: the counts used,
the resolved dataframe column, and the table rows (month, value) in
dataframe order. -/
structure DetailsView where
  counts : List ℤ
  col : String
  rows : List (ℤ × ℚ)

/-- `render_details(selected_kpi, employee)` (src lines 877–931): counts via
`DATA_BY_EMP.get(employee, DATA_BY_EMP["All"])`, history seed 77 for `"All"`
else `abs(hash(employee)) % 10_000`, dataframe via `make_3_months_kpis`, and
the meta lookup defaulting to `meta["ctr"]`. -/
def render_details (selected_kpi employee : String) (st : PyState)
    (now : ℤ) : DetailsView :=
  let data := DATA_BY_EMP st
  let counts := dict_get data employee (dict_get data "All" [])
  let seed := if employee == "All" then 77
    else (st.strHash employee).natAbs % 10000
  let df := (make_3_months_kpis counts seed st now).1
  let m := (meta.lookup selected_kpi).getD
    ((meta.lookup "ctr").getD ("", "", ""))
  let col := m.2.1
  ⟨counts, col, df.map (fun r => (r.month, rowField col r))⟩

/-! ### Helper lemmas about the monotone clamp -/

/-- The clamp pass emits a non-increasing tail below its accumulator. -/
theorem clampFrom_chain (l : List ℤ) :
    ∀ prev, List.Chain' (fun a b => b ≤ a) (prev :: clampFrom prev l) := by
  induction l with
  | nil => intro prev; simp [clampFrom]
  | cons y ys ih =>
    intro prev
    exact List.Chain'.cons (min_le_right y prev) (ih (min y prev))

/-- Every clamped counts list is monotonically non-increasing. -/
theorem monotone_clamp_chain (l : List ℤ) :
    List.Chain' (fun a b => b ≤ a) (monotone_clamp l) := by
  cases l with
  | nil => simp [monotone_clamp]
  | cons x xs => exact clampFrom_chain xs x

theorem clampFrom_length (l : List ℤ) :
    ∀ prev, (clampFrom prev l).length = l.length := by
  induction l with
  | nil => intro prev; rfl
  | cons y ys ih => intro prev; simp [clampFrom, ih]

theorem monotone_clamp_length (l : List ℤ) :
    (monotone_clamp l).length = l.length := by
  cases l with
  | nil => rfl
  | cons x xs => simp [monotone_clamp, clampFrom_length]

theorem clampFrom_nonneg (l : List ℤ) :
    ∀ prev, 0 ≤ prev → (∀ x ∈ l, 0 ≤ x) →
      ∀ x ∈ clampFrom prev l, 0 ≤ x := by
  induction l with
  | nil => intro prev _ _ x hx; simp [clampFrom] at hx
  | cons y ys ih =>
    intro prev hprev hl x hx
    simp only [clampFrom, List.mem_cons] at hx
    rcases hx with rfl | hx
    · exact le_min (hl y (by simp)) hprev
    · exact ih (min y prev) (le_min (hl y (by simp)) hprev)
        (fun z hz => hl z (by simp [hz])) x hx

theorem monotone_clamp_nonneg (l : List ℤ) (hl : ∀ x ∈ l, 0 ≤ x) :
    ∀ x ∈ monotone_clamp l, 0 ≤ x := by
  cases l with
  | nil => intro x hx; simp [monotone_clamp] at hx
  | cons y ys =>
    intro x hx
    simp only [monotone_clamp, List.mem_cons] at hx
    rcases hx with rfl | hx
    · exact hl x (by simp)
    · exact clampFrom_nonneg ys y (hl y (by simp))
        (fun z hz => hl z (by simp [hz])) x hx

/-- A list of length six is a literal six-element list. -/
theorem exists_six {l : List ℤ} (h : l.length = 6) :
    ∃ a b c d e f, l = [a, b, c, d, e, f] := by
  rcases l with _ | ⟨a, _ | ⟨b, _ | ⟨c, _ | ⟨d, _ | ⟨e, _ | ⟨f, _ | ⟨g, t⟩⟩⟩⟩⟩⟩⟩ <;>
    simp_all

/-- A concrete random-source state (all raw draws 0) used to instantiate
witnesses and counterexamples. -/
def st0 : PyState := ⟨0, fun _ _ => 0, fun _ _ => 0, fun _ => 0⟩

/-! ### Claim theorems -/

/-- C1: every FunnelCounts sequence produced by `make_dummy_funnel`, by
`split_by_employees` (each named employee's entry), and by
`make_3_months_kpis` (each month's six stage counts) is monotonically
non-increasing: for every seed and stream, `count[i] ≥ count[i+1]`. -/
theorem funnel_counts_nonincreasing :
    (∀ (seed : ℕ) (st : PyState),
      List.Chain' (fun a b => b ≤ a) (make_dummy_funnel seed st).1) ∧
    (∀ (counts : List ℤ) (seed : ℕ) (st : PyState) (e : String),
      e ∈ ["Sofía", "Mateo", "Valentina", "Juan"] →
      List.Chain' (fun a b => b ≤ a)
        (dict_get (split_by_employees counts seed st).1 e [])) ∧
    (∀ (counts : List ℤ) (seed : ℕ) (st : PyState) (now : ℤ),
      counts.length = 6 →
      ∀ r ∈ (make_3_months_kpis counts seed st now).1,
        List.Chain' (fun a b => b ≤ a) r.counts) := by
  refine ⟨?_, ?_, ?_⟩
  · intro seed st
    simp [make_dummy_funnel, List.chain'_cons]
  · intro counts seed st e he
    simp only [List.mem_cons, List.not_mem_nil, or_false] at he
    rcases he with rfl | rfl | rfl | rfl <;>
      · simp [split_by_employees, split_loop, dict_get, List.lookup]
        exact monotone_clamp_chain _
  · intro counts seed st now hlen r hr
    simp only [make_3_months_kpis, List.mem_map] at hr
    obtain ⟨idx, _, rfl⟩ := hr
    have hv : (monotone_clamp (counts.map fun (c : ℤ) =>
        pyInt ((c : ℚ) * drift_at st seed idx))).length = 6 := by
      rw [monotone_clamp_length, List.length_map, hlen]
    obtain ⟨a, b, c, d, e, f, heq⟩ := exists_six hv
    have hch := monotone_clamp_chain
      (counts.map fun (c : ℤ) => pyInt ((c : ℚ) * drift_at st seed idx))
    rw [heq] at hch
    simp only [month_row, MonthlyKpiRow.counts, heq]
    simpa using hch

/-- Witness for C1: the hypothesised parts applied at concrete inputs. -/
theorem funnel_counts_nonincreasing_witness :
    ("Mateo" ∈ ["Sofía", "Mateo", "Valentina", "Juan"] ∧
      List.Chain' (fun a b => b ≤ a)
        (dict_get (split_by_employees [6, 5, 4, 3, 2, 1] 11 st0).1
          "Mateo" [])) ∧
    (([6, 5, 4, 3, 2, 1] : List ℤ).length = 6 ∧
      ∀ r ∈ (make_3_months_kpis [6, 5, 4, 3, 2, 1] 77 st0 0).1,
        List.Chain' (fun a b => b ≤ a) r.counts) :=
  ⟨⟨by decide,
    funnel_counts_nonincreasing.2.1 [6, 5, 4, 3, 2, 1] 11 st0 "Mateo"
      (by decide)⟩,
   ⟨by decide,
    funnel_counts_nonincreasing.2.2 [6, 5, 4, 3, 2, 1] 77 st0 0 (by decide)⟩⟩

/-- C3: the conversion-rate computation returns `num/den*100` when the
denominator is non-zero and exactly 0 for every numerator when the
denominator is 0 (a total function on ℚ: no division error, no NaN), both
for `pct_prev` and for the row-local `safe_pct`. -/
theorem conversion_rate_safe_division :
    (∀ curr prev : ℤ, prev ≠ 0 →
      pct_prev curr prev = (curr : ℚ) / (prev : ℚ) * 100) ∧
    (∀ curr : ℤ, pct_prev curr 0 = 0) ∧
    (∀ num den : ℤ, den ≠ 0 →
      safe_pct num den = (num : ℚ) / (den : ℚ) * 100) ∧
    (∀ num : ℤ, safe_pct num 0 = 0) :=
  ⟨fun _ _ h => if_pos h, fun _ => if_neg (by simp),
   fun _ _ h => if_pos h, fun _ => if_neg (by simp)⟩

/-- Witness for C3 at concrete inputs, including the 0/0 case. -/
theorem conversion_rate_safe_division_witness :
    pct_prev 50 200 = (50 : ℚ) / (200 : ℚ) * 100 ∧ pct_prev 0 0 = 0 ∧
    safe_pct 7 14 = (7 : ℚ) / (14 : ℚ) * 100 ∧ safe_pct 7 0 = 0 :=
  ⟨conversion_rate_safe_division.1 50 200 (by decide),
   conversion_rate_safe_division.2.1 0,
   conversion_rate_safe_division.2.2.1 7 14 (by decide),
   conversion_rate_safe_division.2.2.2 7⟩

/-- C4: the generators are deterministic per seed and isolated from global
random state: re-invoking `make_dummy_funnel` / `make_3_months_kpis` with
the same seed after any other call yields the same result (each call builds
a fresh seeded generator), and the result is independent of the global
`random`-module state. -/
theorem generators_deterministic :
    (∀ (st : PyState) (seed seed' : ℕ) (g : ℤ),
      (make_dummy_funnel seed ((make_dummy_funnel seed' st).2)).1 =
        (make_dummy_funnel seed st).1 ∧
      (make_dummy_funnel seed { st with globalRandom := g }).1 =
        (make_dummy_funnel seed st).1) ∧
    (∀ (st : PyState) (counts : List ℤ) (seed seed' : ℕ) (now g : ℤ),
      (make_3_months_kpis counts seed
          ((make_3_months_kpis counts seed' st now).2) now).1 =
        (make_3_months_kpis counts seed st now).1 ∧
      (make_3_months_kpis counts seed ((make_dummy_funnel seed' st).2) now).1 =
        (make_3_months_kpis counts seed st now).1 ∧
      (make_3_months_kpis counts seed { st with globalRandom := g } now).1 =
        (make_3_months_kpis counts seed st now).1) :=
  ⟨fun _ _ _ _ => ⟨rfl, rfl⟩, fun _ _ _ _ _ _ => ⟨rfl, rfl, rfl⟩⟩

/-! ### Element-wise sum lemmas for the employee split -/

theorem getD_add_vec (a : List ℤ) :
    ∀ (b : List ℤ), a.length = b.length → ∀ i : ℕ,
      (add_vec a b).getD i 0 = a.getD i 0 + b.getD i 0 := by
  induction a with
  | nil => intro b h i; cases b with
    | nil => simp [add_vec]
    | cons y ys => simp at h
  | cons x xs ih =>
    intro b h i
    cases b with
    | nil => simp at h
    | cons y ys =>
      cases i with
      | zero => simp [add_vec]
      | succ j =>
        simp only [add_vec, List.zipWith_cons_cons, List.getD_cons_succ]
        exact ih ys (by simpa using h) j

theorem getD_replicate_zero (n i : ℕ) :
    (List.replicate n (0 : ℤ)).getD i 0 = 0 := by
  induction n generalizing i with
  | zero => simp
  | succ m ih =>
    cases i with
    | zero => simp [List.replicate]
    | succ j => simp only [List.replicate, List.getD_cons_succ]; exact ih j

/-- The fold of `summed[i] += per_emp[e][i]` over the four employee entries,
element-wise. -/
theorem getD_sum4 (n : ℕ) (c0 c1 c2 c3 : List ℤ)
    (h0 : c0.length = n) (h1 : c1.length = n) (h2 : c2.length = n)
    (h3 : c3.length = n) (i : ℕ) :
    (add_vec (add_vec (add_vec (add_vec (List.replicate n 0) c0) c1) c2)
        c3).getD i 0
      = c0.getD i 0 + c1.getD i 0 + c2.getD i 0 + c3.getD i 0 := by
  have la : ∀ a b : List ℤ, (add_vec a b).length = min a.length b.length := by
    intro a b; simp [add_vec]
  rw [getD_add_vec, getD_add_vec, getD_add_vec, getD_add_vec,
    getD_replicate_zero, zero_add]
  all_goals simp [la, h0, h1, h2, h3]

/-- C2: for every base FunnelCounts and every seed, the `"All"` entry of the
breakdown returned by `split_by_employees` equals, at every stage index, the
element-wise sum of the four named employees' already-clamped entries. -/
theorem split_all_elementwise_sum :
    ∀ (counts : List ℤ) (seed : ℕ) (st : PyState) (i : ℕ),
      (dict_get (split_by_employees counts seed st).1 "All" []).getD i 0 =
        (dict_get (split_by_employees counts seed st).1 "Sofía" []).getD i 0 +
        (dict_get (split_by_employees counts seed st).1 "Mateo" []).getD i 0 +
        (dict_get (split_by_employees counts seed st).1 "Valentina" []).getD
          i 0 +
        (dict_get (split_by_employees counts seed st).1 "Juan" []).getD
          i 0 := by
  intro counts seed st i
  simp only [split_by_employees, split_loop, dict_get, List.lookup, List.zip,
    List.zipWith, List.cons_append, List.nil_append, List.foldl_cons,
    List.foldl_nil]
  simp only [String.reduceBEq, Option.getD_some]
  rw [getD_sum4 counts.length]
  · rfl
  all_goals simp [monotone_clamp_length]

/-- Parsing a card's Dash prop-id recovers its KPI identifier, for each of
the six cards. -/
theorem kpi_from_prop_dash : ∀ k ∈ kpi_ids, kpi_from_prop (dash_prop_id k) = k := by
  decide

/-- C5: clicking a KPI card performs one transition that sets the store to
the card's KPI and the tab to Details together (both outputs of the one
`kpi_click` callback), leaving the employee unchanged; in particular,
selecting `"Mateo"` then clicking the CTR card yields
`{employee = "Mateo", kpi = "ctr", tab = Details}`, and the Details table
then has exactly 3 rows, ordered oldest-to-newest by month. -/
theorem kpi_click_single_transition :
    (∀ (s : ViewState) (k : String), k ∈ kpi_ids →
      clickKpiCard k s = { s with kpi := k, tab := "tab-details" }) ∧
    clickKpiCard "ctr" (selectEmployee "Mateo" initialViewState) =
      ⟨"Mateo", "ctr", "tab-details"⟩ ∧
    (∀ (st : PyState) (now : ℤ),
      (render_details "ctr" "Mateo" st now).rows.length = 3 ∧
      (render_details "ctr" "Mateo" st now).rows.map Prod.fst =
        [now - 2, now - 1, now] ∧
      List.Chain' (· < ·)
        ((render_details "ctr" "Mateo" st now).rows.map Prod.fst)) := by
  have h3 : List.range 3 = [0, 1, 2] := rfl
  have hmap : ∀ (st : PyState) (now : ℤ),
      (render_details "ctr" "Mateo" st now).rows.map Prod.fst =
        [now - 2, now - 1, now] := by
    intro st now
    simp [render_details, make_3_months_kpis, h3, month_row]
    omega
  refine ⟨?_, by decide, ?_⟩
  · intro s k hk
    simp [clickKpiCard, kpi_click, kpi_from_prop_dash k hk]
  · intro st now
    refine ⟨?_, hmap st now, ?_⟩
    · simp [render_details, make_3_months_kpis, h3]
    · rw [hmap st now]
      simp [List.chain'_cons]
      try omega

/-- Witness for C5's hypothesised part: clicking the CTR card from the
initial state. -/
theorem kpi_click_single_transition_witness :
    clickKpiCard "ctr" initialViewState =
      { initialViewState with kpi := "ctr", tab := "tab-details" } :=
  kpi_click_single_transition.1 initialViewState "ctr" (by decide)

/-! ### First-in-enumeration-order semantics of the best/worst selection -/

/-- `r` is the first element of `l` attaining the minimum of `f`. -/
def IsFirstMin {α : Type} (f : α → ℚ) (l : List α) (r : α) : Prop :=
  ∃ i : ℕ, ∃ h : i < l.length, l.get ⟨i, h⟩ = r ∧
    (∀ j (hj : j < l.length), f r ≤ f (l.get ⟨j, hj⟩)) ∧
    (∀ j (hj : j < l.length), j < i → f r < f (l.get ⟨j, hj⟩))

/-- `r` is the first element of `l` attaining the maximum of `f`. -/
def IsFirstMax {α : Type} (f : α → ℚ) (l : List α) (r : α) : Prop :=
  ∃ i : ℕ, ∃ h : i < l.length, l.get ⟨i, h⟩ = r ∧
    (∀ j (hj : j < l.length), f (l.get ⟨j, hj⟩) ≤ f r) ∧
    (∀ j (hj : j < l.length), j < i → f (l.get ⟨j, hj⟩) < f r)

/-- Python's `min(…, key=f)` returns the first element attaining the
minimum. -/
theorem py_min_by_first {α : Type} (f : α → ℚ) (x : α) (xs : List α) :
    IsFirstMin f (x :: xs) (py_min_by f x xs) := by
  induction xs generalizing x with
  | nil =>
    refine ⟨0, by simp, by simp [py_min_by], ?_, ?_⟩
    · intro j hj
      rcases j with _ | j'
      · simp [py_min_by]
      · simp at hj
    · intro j hj hji
      omega
  | cons y ys ih =>
    have hstep : py_min_by f x (y :: ys) =
        py_min_by f (if f y < f x then y else x) ys := rfl
    by_cases hc : f y < f x
    · rw [hstep, if_pos hc]
      obtain ⟨i, hi, hget, hle, hlt⟩ := ih y
      have hy0 : f (py_min_by f y ys) ≤ f y := by
        have := hle 0 (by simp)
        simpa using this
      refine ⟨i + 1, by simpa using Nat.succ_lt_succ hi, hget, ?_, ?_⟩
      · intro j hj
        rcases j with _ | j'
        · exact le_of_lt (lt_of_le_of_lt hy0 hc)
        · exact hle j' (by simpa using hj)
      · intro j hj hji
        rcases j with _ | j'
        · exact lt_of_le_of_lt hy0 hc
        · exact hlt j' (by simpa using hj) (by omega)
    · rw [hstep, if_neg hc]
      have hxy : f x ≤ f y := le_of_not_lt hc
      obtain ⟨i, hi, hget, hle, hlt⟩ := ih x
      have hx0 : f (py_min_by f x ys) ≤ f x := by
        have := hle 0 (by simp)
        simpa using this
      rcases i with _ | i'
      · refine ⟨0, by simp, by simpa using hget, ?_, ?_⟩
        · intro j hj
          rcases j with _ | _ | j'
          · exact hx0
          · exact le_trans hx0 hxy
          · exact hle (j' + 1) (by simpa using hj)
        · intro j hj hji
          omega
      · have hx0' : f (py_min_by f x ys) < f x := hlt 0 (by simp) (by omega)
        refine ⟨i' + 2, by simpa using hi, by simpa using hget, ?_, ?_⟩
        · intro j hj
          rcases j with _ | _ | j'
          · exact hx0
          · exact le_trans hx0 hxy
          · exact hle (j' + 1) (by simpa using hj)
        · intro j hj hji
          rcases j with _ | _ | j'
          · exact hx0'
          · exact lt_of_lt_of_le hx0' hxy
          · exact hlt (j' + 1) (by simpa using hj) (by omega)

/-- Python's `max` with key `f` is Python's `min` with key `-f`. -/
theorem py_max_by_eq_min_neg {α : Type} (f : α → ℚ) (x : α) (xs : List α) :
    py_max_by f x xs = py_min_by (fun a => -f a) x xs := by
  unfold py_max_by py_min_by
  congr 1
  funext b y
  simp

/-- Python's `max(…, key=f)` returns the first element attaining the
maximum. -/
theorem py_max_by_first {α : Type} (f : α → ℚ) (x : α) (xs : List α) :
    IsFirstMax f (x :: xs) (py_max_by f x xs) := by
  rw [py_max_by_eq_min_neg]
  obtain ⟨i, hi, hget, hle, hlt⟩ := py_min_by_first (fun a => -f a) x xs
  refine ⟨i, hi, hget, ?_, ?_⟩
  · intro j hj
    have := hle j hj
    simpa using this
  · intro j hj hji
    have := hlt j hj hji
    simpa using this

/-- C6: the best/worst selection of `update_overview` (`rankKpis`) returns
as best the first rate attaining the maximum and as worst the first rate
attaining the minimum, in the fixed enumeration order of the rates dict; on
rates CTR=50, Click→Lead=50, Lead→MQL=10, MQL→SQL=10, SQL→Won=10 the best is
`"CTR"` and the worst is `"Lead → MQL"`. -/
theorem rank_kpis_first_in_order :
    (∀ (r : String × ℚ) (rs : List (String × ℚ)),
      rankKpis r rs = ((py_max_by Prod.snd r rs).1,
        (py_min_by Prod.snd r rs).1) ∧
      IsFirstMax Prod.snd (r :: rs) (py_max_by Prod.snd r rs) ∧
      IsFirstMin Prod.snd (r :: rs) (py_min_by Prod.snd r rs)) ∧
    rankKpis ("CTR", 50)
      [("Click → Lead", 50), ("Lead → MQL", 10), ("MQL → SQL", 10),
       ("SQL → Won", 10)] = ("CTR", "Lead → MQL") := by
  constructor
  · intro r rs
    exact ⟨rfl, py_max_by_first Prod.snd r rs, py_min_by_first Prod.snd r rs⟩
  · norm_num [rankKpis, py_max_by, py_min_by]

/-- An employee name outside `EMPLOYEES` is absent from the breakdown
dict. -/
theorem DATA_lookup_none (st : PyState) (e : String)
    (he : e ∉ EMPLOYEES) : (DATA_BY_EMP st).lookup e = none := by
  simp only [EMPLOYEES, List.mem_cons, List.not_mem_nil, or_false,
    not_or] at he
  obtain ⟨hAll, hSofia, hMateo, hValentina, hJuan⟩ := he
  simp [DATA_BY_EMP, split_by_employees, split_loop, List.lookup,
    beq_eq_false_iff_ne.mpr hAll, beq_eq_false_iff_ne.mpr hSofia,
    beq_eq_false_iff_ne.mpr hMateo, beq_eq_false_iff_ne.mpr hValentina,
    beq_eq_false_iff_ne.mpr hJuan]

/-- C7 counterexample: a KPI identifier outside the known set is rendered by
`render_details` as the CTR column (the code's `meta.get(selected_kpi,
meta["ctr"])` default), not as `"impressions"` as the claim states. -/
theorem unknown_kpi_renders_ctr_cex :
    (render_details "bogus" "All" st0 0).col = "ctr" ∧
    (render_details "bogus" "All" st0 0).col ≠ "impressions" := by
  constructor <;> decide

/-- C7 (amended): for selector values outside the known sets rendering falls
back rather than failing: an employee not in `EMPLOYEES` falls back to the
`"All"` entry (`update_overview` output is identical; in `render_details`
the counts fall back to the `"All"` counts, while the history seed is still
derived from the given name), and a KPI identifier not among the six known
identifiers is treated as `"ctr"` in `render_details`. -/
theorem selector_fallback_defaults :
    (∀ (st : PyState) (e : String), e ∉ EMPLOYEES →
      update_overview e st = update_overview "All" st) ∧
    (∀ (st : PyState) (e k : String) (now : ℤ), e ∉ EMPLOYEES →
      (render_details k e st now).counts =
        (render_details k "All" st now).counts) ∧
    (∀ (st : PyState) (e k : String) (now : ℤ), k ∉ kpi_ids →
      (render_details k e st now).col = "ctr") := by
  refine ⟨?_, ?_, ?_⟩
  · intro st e he
    have hnone := DATA_lookup_none st e he
    simp only [update_overview, dict_get, hnone, Option.getD_none]
    cases hl : (DATA_BY_EMP st).lookup "All" <;> simp [hl]
  · intro st e k now he
    have hnone := DATA_lookup_none st e he
    simp only [render_details, dict_get, hnone, Option.getD_none]
    cases hl : (DATA_BY_EMP st).lookup "All" <;> simp [hl]
  · intro st e k now hk
    simp only [kpi_ids, List.mem_cons, List.not_mem_nil, or_false,
      not_or] at hk
    obtain ⟨h1, h2, h3, h4, h5, h6⟩ := hk
    simp [render_details, meta, List.lookup, beq_eq_false_iff_ne.mpr h1,
      beq_eq_false_iff_ne.mpr h2, beq_eq_false_iff_ne.mpr h3,
      beq_eq_false_iff_ne.mpr h4, beq_eq_false_iff_ne.mpr h5,
      beq_eq_false_iff_ne.mpr h6]

/-- Witness for C7's amended claim at concrete unknown selector values. -/
theorem selector_fallback_defaults_witness :
    update_overview "Nadie" st0 = update_overview "All" st0 ∧
    (render_details "ctr" "Nadie" st0 0).counts =
      (render_details "ctr" "All" st0 0).counts ∧
    (render_details "unknown_kpi" "All" st0 0).col = "ctr" :=
  ⟨selector_fallback_defaults.1 st0 "Nadie" (by decide),
   selector_fallback_defaults.2.1 st0 "Nadie" "ctr" 0 (by decide),
   selector_fallback_defaults.2.2 st0 "All" "unknown_kpi" 0 (by decide)⟩

/-- `np.clip` keeps its value between the bounds. -/
theorem clip_bounds (x lo hi : ℚ) (h : lo ≤ hi) :
    lo ≤ clip x lo hi ∧ clip x lo hi ≤ hi :=
  ⟨le_max_left _ _, max_le h (min_le_left _ _)⟩

/-- C8: the drift multiplier applied at month index `idx` equals
`0.90 + 0.06*idx` plus a noise term clamped to `[-0.05, 0.05]`, hence lies
within ±0.05 of the base; the bases increase strictly with the index and are
0.90, 0.96, 1.02 at indices 0, 1, 2. -/
theorem drift_multiplier_bounds :
    (∀ (st : PyState) (seed idx : ℕ), ∃ noise : ℚ,
      -(5/100) ≤ noise ∧ noise ≤ 5/100 ∧
      drift_at st seed idx = (9/10 + 6/100 * (idx : ℚ)) + noise) ∧
    (∀ (st : PyState) (seed idx : ℕ),
      9/10 + 6/100 * (idx : ℚ) - 5/100 ≤ drift_at st seed idx ∧
      drift_at st seed idx ≤ 9/10 + 6/100 * (idx : ℚ) + 5/100) ∧
    (∀ idx : ℕ,
      (9:ℚ)/10 + 6/100 * (idx : ℚ) < 9/10 + 6/100 * ((idx : ℚ) + 1)) ∧
    ((9:ℚ)/10 + 6/100 * ((0:ℕ) : ℚ) = 90/100 ∧
     (9:ℚ)/10 + 6/100 * ((1:ℕ) : ℚ) = 96/100 ∧
     (9:ℚ)/10 + 6/100 * ((2:ℕ) : ℚ) = 102/100) := by
  have hb : ∀ (st : PyState) (seed idx : ℕ),
      -(5/100 : ℚ) ≤ clip ((Rng.mk seed idx).normal st 0 (3/100)).1
          (-(5/100)) (5/100) ∧
      clip ((Rng.mk seed idx).normal st 0 (3/100)).1 (-(5/100)) (5/100) ≤
        5/100 := by
    intro st seed idx
    exact clip_bounds _ _ _ (by norm_num)
  refine ⟨?_, ?_, ?_, ?_⟩
  · intro st seed idx
    exact ⟨_, (hb st seed idx).1, (hb st seed idx).2, rfl⟩
  · intro st seed idx
    have h := hb st seed idx
    unfold drift_at
    constructor <;> linarith [h.1, h.2]
  · intro idx
    have : (6:ℚ)/100 * ((idx : ℚ) + 1) = 6/100 * (idx : ℚ) + 6/100 := by
      ring
    rw [this]
    linarith
  · norm_num

theorem pyInt_nonneg (q : ℚ) (h : 0 ≤ q) : 0 ≤ pyInt q := by
  unfold pyInt
  rw [if_pos h]
  exact Int.floor_nonneg.mpr h

/-- The safe percentage of a numerator between 0 and its denominator lies in
`[0, 100]` (including the zero-denominator branch). -/
theorem safe_pct_bounds (num den : ℤ) (h0 : 0 ≤ num) (hle : num ≤ den) :
    0 ≤ safe_pct num den ∧ safe_pct num den ≤ 100 := by
  unfold safe_pct
  split_ifs with hd
  · have hdpos : (0:ℚ) < (den : ℚ) := by
      have : (0:ℤ) < den := lt_of_le_of_ne (le_trans h0 hle) (Ne.symm hd)
      exact_mod_cast this
    have hn : (0:ℚ) ≤ (num : ℚ) := by exact_mod_cast h0
    constructor
    · positivity
    · have h1 : (num:ℚ) / (den:ℚ) ≤ 1 := by
        rw [div_le_one hdpos]
        exact_mod_cast hle
      calc (num:ℚ) / (den:ℚ) * 100 ≤ 1 * 100 :=
            mul_le_mul_of_nonneg_right h1 (by norm_num)
        _ = 100 := by norm_num
  · norm_num

/-- C10: in every row produced by `make_3_months_kpis` from six non-negative
counts, each of the five derived conversion percentages lies in `[0, 100]`:
the monotone clamp makes each numerator at most its denominator, all counts
stay non-negative, and the zero-denominator branch yields 0. -/
theorem monthly_rates_within_bounds :
    ∀ (st : PyState) (seed : ℕ) (counts : List ℤ) (now : ℤ),
      counts.length = 6 → (∀ c ∈ counts, 0 ≤ c) →
      ∀ r ∈ (make_3_months_kpis counts seed st now).1,
        (0 ≤ r.ctr ∧ r.ctr ≤ 100) ∧
        (0 ≤ r.click_to_lead ∧ r.click_to_lead ≤ 100) ∧
        (0 ≤ r.lead_to_mql ∧ r.lead_to_mql ≤ 100) ∧
        (0 ≤ r.mql_to_sql ∧ r.mql_to_sql ≤ 100) ∧
        (0 ≤ r.sql_to_won ∧ r.sql_to_won ≤ 100) := by
  intro st seed counts now hlen hnn r hr
  simp only [make_3_months_kpis, List.mem_map] at hr
  obtain ⟨idx, _, rfl⟩ := hr
  have hdrift : 0 ≤ drift_at st seed idx := by
    have hc := clip_bounds ((Rng.mk seed idx).normal st 0 (3/100)).1
      (-(5/100)) (5/100) (by norm_num)
    have hidx : (0:ℚ) ≤ (idx : ℚ) := Nat.cast_nonneg idx
    unfold drift_at
    nlinarith [hc.1]
  set L := counts.map (fun (c : ℤ) => pyInt ((c : ℚ) * drift_at st seed idx))
    with hL
  have hLnn : ∀ x ∈ L, 0 ≤ x := by
    intro x hx
    rw [hL] at hx
    simp only [List.mem_map] at hx
    obtain ⟨c, hc, rfl⟩ := hx
    refine pyInt_nonneg _ (mul_nonneg ?_ hdrift)
    exact_mod_cast hnn c hc
  have hv : (monotone_clamp L).length = 6 := by
    rw [monotone_clamp_length, hL, List.length_map, hlen]
  obtain ⟨a, b, c, d, e, f, heq⟩ := exists_six hv
  have hch := monotone_clamp_chain L
  have hnn' := monotone_clamp_nonneg L hLnn
  rw [heq] at hch hnn'
  simp only [List.chain'_cons, List.chain'_singleton, and_true] at hch
  obtain ⟨hba, hcb, hdc, hed, hfe⟩ := hch
  have hbn : 0 ≤ b := hnn' b (by simp)
  have hcn : 0 ≤ c := hnn' c (by simp)
  have hdn : 0 ≤ d := hnn' d (by simp)
  have hen : 0 ≤ e := hnn' e (by simp)
  have hfn : 0 ≤ f := hnn' f (by simp)
  simp only [month_row, heq]
  exact ⟨safe_pct_bounds b a hbn hba, safe_pct_bounds c b hcn hcb,
    safe_pct_bounds d c hdn hdc, safe_pct_bounds e d hen hed,
    safe_pct_bounds f e hfn hfe⟩

/-- Witness for C10 on a concrete funnel. -/
theorem monthly_rates_within_bounds_witness :
    (([1000, 500, 100, 50, 10, 2] : List ℤ).length = 6 ∧
      (∀ c ∈ ([1000, 500, 100, 50, 10, 2] : List ℤ), 0 ≤ c)) ∧
    ∀ r ∈ (make_3_months_kpis [1000, 500, 100, 50, 10, 2] 77 st0 0).1,
      (0 ≤ r.ctr ∧ r.ctr ≤ 100) ∧
      (0 ≤ r.click_to_lead ∧ r.click_to_lead ≤ 100) ∧
      (0 ≤ r.lead_to_mql ∧ r.lead_to_mql ≤ 100) ∧
      (0 ≤ r.mql_to_sql ∧ r.mql_to_sql ≤ 100) ∧
      (0 ≤ r.sql_to_won ∧ r.sql_to_won ≤ 100) :=
  ⟨⟨by decide, by decide⟩,
   monthly_rates_within_bounds st0 77 [1000, 500, 100, 50, 10, 2] 0
     (by decide) (by decide)⟩

/-- C9: `fmt_int` formats integers at or above a million as the
binary64 quotient `n/1e6` with exactly 2 decimals plus `"M"`, integers at or
above a thousand as `n/1e3` with exactly 1 decimal plus `"K"`, and smaller
integers as their plain decimal string; in particular
`fmt_int 999 = "999"`, `fmt_int 1500 = "1.5K"`,
`fmt_int 2300000 = "2.30M"`. -/
theorem fmt_int_spec :
    (∀ n : ℤ, 1000000 ≤ n →
      fmt_int n = fmtFixed2 (pydivFloat n.toNat 1000000) ++ "M") ∧
    (∀ n : ℤ, 1000 ≤ n → n < 1000000 →
      fmt_int n = fmtFixed1 (pydivFloat n.toNat 1000) ++ "K") ∧
    (∀ n : ℤ, n < 1000 → fmt_int n = toString n) ∧
    (fmt_int 999 = "999" ∧ fmt_int 1500 = "1.5K" ∧
      fmt_int 2300000 = "2.30M") := by
  refine ⟨?_, ?_, ?_, by decide, by decide, by decide⟩
  · intro n h
    rw [fmt_int, if_pos h]
  · intro n h1 h2
    rw [fmt_int, if_neg (by omega), if_pos h1]
  · intro n h
    rw [fmt_int, if_neg (by omega), if_neg (by omega)]

/-- Witness for C9's branch statements at concrete inputs. -/
theorem fmt_int_spec_witness :
    fmt_int 2500000 =
      fmtFixed2 (pydivFloat (2500000 : ℤ).toNat 1000000) ++ "M" ∧
    fmt_int 5000 = fmtFixed1 (pydivFloat (5000 : ℤ).toNat 1000) ++ "K" ∧
    fmt_int 999 = toString (999 : ℤ) :=
  ⟨fmt_int_spec.1 2500000 (by decide),
   fmt_int_spec.2.1 5000 (by decide) (by decide),
   fmt_int_spec.2.2.1 999 (by decide)⟩
